import Mathlib

set_option linter.unusedSectionVars false
set_option linter.unusedVariables false

/-!
Formal model of the spatial-partitioning and collision-resolution core of a
browser maze viewer.  Two components are embedded:

* `SpatialHashGrid` — a uniform grid over 2-D world space mapping object
  handles (modelled as naturals, standing for the opaque mesh references the
  original stores) to cells.  The original's per-cell JS `Set`s are modelled
  as duplicate-free lists in insertion order (`setAdd`/`setDelete`), the cell
  array as a total function from indices with empty default (reads in the
  range-checked query path go through `cellAt`, mirroring the `if (cell)`
  guard), and the object→cell `Map` as a function to `Option ℤ`.  The grid is
  generic over a linear ordered field with floor so that it can be run on ℚ
  and attached to the ℝ-valued collision system.

* `CollisionSystem` — the cylinder-vs-box resolver.  Positions are `Vec3`
  over ℝ; `checkCollisions` is state-passing: it returns the updated system
  (performance counters, active-collider scratch list) together with the
  adjusted position, mirroring the mutations the original performs.
-/

namespace Maze

open Classical in
/-- JS `Set.add`: append the element if it is not already present
(insertion order preserved, no duplicates). -/
def setAdd (l : List ℕ) (o : ℕ) : List ℕ :=
  if o ∈ l then l else l ++ [o]

/-- JS `Set.delete`: remove the element if present. -/
def setDelete (l : List ℕ) (o : ℕ) : List ℕ :=
  l.erase o

variable {α : Type*} [LinearOrderedField α] [FloorRing α]

/-- The spatial hash grid state: configured sizes, derived cell counts,
per-cell membership lists and the object→cell tracking map. -/
structure SpatialHashGrid (α : Type*) where
  cellSize : α
  worldSizeX : α
  worldSizeZ : α
  numCellsX : ℤ
  numCellsZ : ℤ
  cells : ℤ → List ℕ
  objectCells : ℕ → Option ℤ

namespace SpatialHashGrid

/-- `constructor(cellSize, worldSizeX, worldSizeZ)`: cell counts are the
ceilings of worldSize / cellSize; all cells start empty, nothing tracked. -/
def mkGrid (cellSize worldSizeX worldSizeZ : α) : SpatialHashGrid α :=
  { cellSize := cellSize
    worldSizeX := worldSizeX
    worldSizeZ := worldSizeZ
    numCellsX := ⌈worldSizeX / cellSize⌉
    numCellsZ := ⌈worldSizeZ / cellSize⌉
    cells := fun _ => []
    objectCells := fun _ => none }

/-- `getCellIndex(x, z)`: clamp each coordinate to `[0, worldSize − 0.001]`,
divide by the cell size, floor, and flatten as `cellX + cellZ * numCellsX`. -/
def getCellIndex (g : SpatialHashGrid α) (x z : α) : ℤ :=
  let cellX := ⌊max 0 (min x (g.worldSizeX - 1/1000)) / g.cellSize⌋
  let cellZ := ⌊max 0 (min z (g.worldSizeZ - 1/1000)) / g.cellSize⌋
  cellX + cellZ * g.numCellsX

/-- `insertObject(object, position)`: add the object to the cell at the
position's index and record that index in the tracking map. -/
def insertObject (g : SpatialHashGrid α) (object : ℕ) (px pz : α) :
    SpatialHashGrid α :=
  let cellIndex := g.getCellIndex px pz
  { g with
    cells := fun i => if i = cellIndex then setAdd (g.cells i) object else g.cells i
    objectCells := fun o => if o = object then some cellIndex else g.objectCells o }

/-- `removeObject(object)`: if the object is tracked, delete it from its
recorded cell and from the tracking map; otherwise do nothing. -/
def removeObject (g : SpatialHashGrid α) (object : ℕ) : SpatialHashGrid α :=
  match g.objectCells object with
  | none => g
  | some cellIndex =>
    { g with
      cells := fun i => if i = cellIndex then setDelete (g.cells i) object else g.cells i
      objectCells := fun o => if o = object then none else g.objectCells o }

/-- `updateObject(object, position)`: remove from the old cell, insert at the
new position. -/
def updateObject (g : SpatialHashGrid α) (object : ℕ) (px pz : α) :
    SpatialHashGrid α :=
  (g.removeObject object).insertObject object px pz

/-- Read of `this.cells[i]` in the query path: the JS `if (cell)` guard skips
indices outside the allocated array, modelled as the empty list there. -/
def cellAt (g : SpatialHashGrid α) (i : ℤ) : List ℕ :=
  if 0 ≤ i ∧ i < g.numCellsX * g.numCellsZ then g.cells i else []

/-- Inclusive integer range `[lo, hi]` (empty when `hi < lo`), the index
values taken by a JS `for (let i = lo; i <= hi; i++)` loop. -/
def intRange (lo hi : ℤ) : List ℤ :=
  (List.range (hi + 1 - lo).toNat).map fun k : ℕ => lo + (k : ℤ)

/-- `findNearbyObjects(position, radius)`: union (as an insertion-ordered,
duplicate-free list) of the cells in the rectangle of cell coordinates
covering the square of half-width `radius` around the position, clamped to
the world bounds. -/
def findNearbyObjects (g : SpatialHashGrid α) (px pz radius : α) : List ℕ :=
  let minCellX := ⌊max 0 (px - radius) / g.cellSize⌋
  let maxCellX := ⌊min (g.worldSizeX - 1/1000) (px + radius) / g.cellSize⌋
  let minCellZ := ⌊max 0 (pz - radius) / g.cellSize⌋
  let maxCellZ := ⌊min (g.worldSizeZ - 1/1000) (pz + radius) / g.cellSize⌋
  (intRange minCellZ maxCellZ).foldl
    (fun acc z =>
      (intRange minCellX maxCellX).foldl
        (fun acc2 x => (g.cellAt (x + z * g.numCellsX)).foldl setAdd acc2) acc)
    []

/-- `clear()`: empty every cell and the tracking map, keep the dimensions. -/
def clearGrid (g : SpatialHashGrid α) : SpatialHashGrid α :=
  { g with cells := fun _ => [], objectCells := fun _ => none }

/-- One call against the grid's mutating interface. -/
inductive GridOp (α : Type*) where
  | insertOp (object : ℕ) (px pz : α)
  | updateOp (object : ℕ) (px pz : α)
  | removeOp (object : ℕ)

/-- Apply one call to the grid. -/
def applyOp (g : SpatialHashGrid α) : GridOp α → SpatialHashGrid α
  | .insertOp o px pz => g.insertObject o px pz
  | .updateOp o px pz => g.updateObject o px pz
  | .removeOp o => g.removeObject o

/-- Run a sequence of calls against the grid. -/
def runOps (g : SpatialHashGrid α) (ops : List (GridOp α)) : SpatialHashGrid α :=
  ops.foldl applyOp g

/-- A call sequence respects the documented precondition of `insertObject`
(the object is not already tracked); `updateObject` and `removeObject` are
unrestricted. -/
def LegalOps : SpatialHashGrid α → List (GridOp α) → Prop
  | _, [] => True
  | g, op :: rest =>
    (match op with
     | .insertOp o _ _ => g.objectCells o = none
     | _ => True) ∧ LegalOps (applyOp g op) rest

/-- Exclusive membership: an object is in a cell's set exactly when the
tracking map records that cell for it (so each tracked object is in exactly
the one recorded cell and untracked objects are in no cell). -/
def ExclusiveMembership (g : SpatialHashGrid α) : Prop :=
  ∀ o i, o ∈ g.cells i ↔ g.objectCells o = some i

/-- Every cell list is duplicate-free (the JS `Set` representation). -/
def CellsNodup (g : SpatialHashGrid α) : Prop :=
  ∀ i, (g.cells i).Nodup

/-- The grid's derived cell counts agree with its configured sizes, as
established by the constructor. -/
def WellFormedDims (g : SpatialHashGrid α) : Prop :=
  g.numCellsX = ⌈g.worldSizeX / g.cellSize⌉ ∧ g.numCellsZ = ⌈g.worldSizeZ / g.cellSize⌉

/-- A 20×20-cell grid over a 100×100 world with cell size 5, on ℚ. -/
def gridQ : SpatialHashGrid ℚ := mkGrid 5 100 100

/-- `gridQ` after a precondition-violating double insert of object 1 at two
positions in different cells. -/
def gridC3 : SpatialHashGrid ℚ :=
  runOps gridQ [GridOp.insertOp 1 0 0, GridOp.insertOp 1 6 0]

/-- `gridQ` with object 1 inserted at `(7,7)`. -/
def gridC8 : SpatialHashGrid ℚ := gridQ.insertObject 1 7 7

end SpatialHashGrid

/-- A THREE.Vector3 value. -/
structure Vec3 where
  x : ℝ
  y : ℝ
  z : ℝ

/-- A wall collider record: box center `position`, box extents `size`, and
the opaque back-reference `mesh` to the rendering primitive (an object
handle, used only to correlate spatial-grid hits). -/
structure WallCollider where
  position : Vec3
  size : Vec3
  mesh : ℕ

/-- The player collider record. -/
structure PlayerCollider where
  position : Vec3
  radius : ℝ
  height : ℝ

/-- The collision system state (scene reference and debug helpers are
rendering-side and not modelled). -/
structure CollisionSystem where
  colliders : List WallCollider
  playerCollider : Option PlayerCollider
  playerRadius : ℝ
  playerHeight : ℝ
  spatialGrid : Option (SpatialHashGrid ℝ)
  maxCheckDistance : ℝ
  activeColliders : List WallCollider
  lastFrameCollisionChecks : ℕ
  totalCollisionChecks : ℕ

namespace WallCollider

/-- `boxMin.x = position.x − size.x * 0.5`. -/
noncomputable def boxMinX (c : WallCollider) : ℝ := c.position.x - c.size.x * (1/2)

/-- `boxMax.x = position.x + size.x * 0.5`. -/
noncomputable def boxMaxX (c : WallCollider) : ℝ := c.position.x + c.size.x * (1/2)

/-- `boxMin.z = position.z − size.z * 0.5`. -/
noncomputable def boxMinZ (c : WallCollider) : ℝ := c.position.z - c.size.z * (1/2)

/-- `boxMax.z = position.z + size.z * 0.5`. -/
noncomputable def boxMaxZ (c : WallCollider) : ℝ := c.position.z + c.size.z * (1/2)

end WallCollider

/-- X coordinate of the closest point on the collider's 2-D box to the
player's 2-D center: `Math.max(boxMin.x, Math.min(p.x, boxMax.x))`. -/
noncomputable def closestX (c : WallCollider) (p : Vec3) : ℝ :=
  max c.boxMinX (min p.x c.boxMaxX)

/-- Z coordinate of the closest point on the collider's 2-D box. -/
noncomputable def closestZ (c : WallCollider) (p : Vec3) : ℝ :=
  max c.boxMinZ (min p.z c.boxMaxZ)

/-- `point2D.x − closestPoint.x`. -/
noncomputable def deltaX (c : WallCollider) (p : Vec3) : ℝ := p.x - closestX c p

/-- `point2D.y − closestPoint.y` (the 2-D `y` is world `z`). -/
noncomputable def deltaZ (c : WallCollider) (p : Vec3) : ℝ := p.z - closestZ c p

/-- `point2D.distanceTo(closestPoint)`: Euclidean distance from the player's
2-D center to the closest point of the collider's box. -/
noncomputable def distToCollider (c : WallCollider) (p : Vec3) : ℝ :=
  Real.sqrt (deltaX c p ^ 2 + deltaZ c p ^ 2)

/-- The `distance === 0` special case: distances from the point to the four
side planes (left, right, near, far), the first-found minimum chosen by the
`for` loop with strict `<`, then a snap to `boundary ± radius` on that axis. -/
noncomputable def ejectFromBox (radius : ℝ) (c : WallCollider) (p : Vec3) : Vec3 :=
  let d0 := p.x - c.boxMinX
  let d1 := c.boxMaxX - p.x
  let d2 := p.z - c.boxMinZ
  let d3 := c.boxMaxZ - p.z
  let m1 : ℝ × ℕ := if d1 < d0 then (d1, 1) else (d0, 0)
  let m2 : ℝ × ℕ := if d2 < m1.1 then (d2, 2) else m1
  let m3 : ℝ × ℕ := if d3 < m2.1 then (d3, 3) else m2
  match m3.2 with
  | 0 => { p with x := c.boxMinX - radius }
  | 1 => { p with x := c.boxMaxX + radius }
  | 2 => { p with z := c.boxMinZ - radius }
  | _ => { p with z := c.boxMaxZ + radius }

open Classical in
/-- The body of the per-collider loop in `checkCollisions`, acting on the
running adjusted position: if the distance to the box is below the player
radius, either push out along the normal by the penetration depth
(`distance > 0`) or eject along the shallowest axis (`distance === 0`). -/
noncomputable def resolveAgainst (radius : ℝ) (c : WallCollider) (p : Vec3) : Vec3 :=
  let distance := distToCollider c p
  if distance < radius then
    if 0 < radius - distance ∧ 0 < distance then
      { p with
        x := p.x + deltaX c p / distance * (radius - distance)
        z := p.z + deltaZ c p / distance * (radius - distance) }
    else if distance = 0 then
      ejectFromBox radius c p
    else p
  else p

namespace CollisionSystem

open Classical in
/-- One iteration of the collider loop: bump both collision-check counters
and resolve the running position against the collider. -/
noncomputable def collisionStep (radius : ℝ) (st : CollisionSystem × Vec3)
    (c : WallCollider) : CollisionSystem × Vec3 :=
  ({ st.1 with
      lastFrameCollisionChecks := st.1.lastFrameCollisionChecks + 1
      totalCollisionChecks := st.1.totalCollisionChecks + 1 },
   resolveAgainst radius c st.2)

open Classical in
/-- One step of the broad-phase filter: look up the first wall collider whose
`mesh` back-reference matches the object handle and add it to the
active-collider set (JS `Set.add`: append if not already present). -/
noncomputable def buildActiveStep (colliders : List WallCollider)
    (acc : List WallCollider) (obj : ℕ) : List WallCollider :=
  match colliders.find? (fun c => c.mesh == obj) with
  | some mc => if mc ∈ acc then acc else acc ++ [mc]
  | none => acc

/-- The broad-phase filter: for each nearby object handle in order, add its
matching wall collider (if any) to the active-collider set. -/
noncomputable def buildActive (colliders : List WallCollider) (nearby : List ℕ) :
    List WallCollider :=
  nearby.foldl (buildActiveStep colliders) []

/-- `checkCollisions(playerPosition, proposedPosition)`: early pass-through
when no player collider exists; otherwise reset the per-frame counter, pick
the colliders to check (all of them, or the spatial-grid broad-phase result),
run the sequential resolution loop, and restore the original Y. -/
noncomputable def checkCollisions (sys : CollisionSystem)
    (playerPosition proposedPosition : Vec3) : CollisionSystem × Vec3 :=
  match sys.playerCollider with
  | none => (sys, proposedPosition)
  | some _ =>
    let sys0 := { sys with lastFrameCollisionChecks := 0 }
    let picked : CollisionSystem × List WallCollider :=
      match sys.spatialGrid with
      | none => (sys0, sys.colliders)
      | some grid =>
        let nearby := grid.findNearbyObjects proposedPosition.x proposedPosition.z
          sys.maxCheckDistance
        let active := buildActive sys.colliders nearby
        ({ sys0 with activeColliders := active }, active)
    let res := picked.2.foldl (collisionStep sys.playerRadius) (picked.1, proposedPosition)
    (res.1, { res.2 with y := playerPosition.y })

/-- `clear()`: drop all wall colliders and the player collider. -/
def clear (sys : CollisionSystem) : CollisionSystem :=
  { sys with colliders := [], playerCollider := none }

/-- The collider set examined by `checkCollisions` (the code's
`collidersToCheck`): the broad-phase result when a spatial grid is attached,
the full wall-collider list otherwise. -/
noncomputable def collidersToCheck (sys : CollisionSystem)
    (proposedPosition : Vec3) : List WallCollider :=
  match sys.spatialGrid with
  | none => sys.colliders
  | some grid =>
    buildActive sys.colliders
      (grid.findNearbyObjects proposedPosition.x proposedPosition.z
        sys.maxCheckDistance)

end CollisionSystem

/-- A box collider centered at `(0,0)` with horizontal size `(2,2)`. -/
noncomputable def boxC1 : WallCollider := ⟨⟨0, 0, 0⟩, ⟨2, 2, 2⟩, 0⟩

/-- A box collider centered at `(0,0)` with horizontal size `(4,2)`
(wider in X). -/
noncomputable def boxC2 : WallCollider := ⟨⟨0, 0, 0⟩, ⟨4, 2, 2⟩, 0⟩

/-- A collision system holding exactly the collider `boxC1`, a player
collider of radius `0.5` created at `(0,0,3)`, and no spatial grid. -/
noncomputable def sysC1 : CollisionSystem :=
  { colliders := [boxC1]
    playerCollider := some ⟨⟨0, 0, 3⟩, 1/2, 9/5⟩
    playerRadius := 1/2
    playerHeight := 9/5
    spatialGrid := none
    maxCheckDistance := 5
    activeColliders := []
    lastFrameCollisionChecks := 0
    totalCollisionChecks := 0 }

/-- A collision system holding exactly the collider `boxC2` and a player
collider of radius `0.5` placed exactly at the box center `(0,0,0)`. -/
noncomputable def sysC2 : CollisionSystem :=
  { sysC1 with
    colliders := [boxC2]
    playerCollider := some ⟨⟨0, 0, 0⟩, 1/2, 9/5⟩ }

/-- `sysC1` with its player collider absent. -/
noncomputable def sysNoPlayer : CollisionSystem :=
  { sysC1 with playerCollider := none }

/-- `sysC1` with an empty wall-collider list (player collider present). -/
noncomputable def sysNoWalls : CollisionSystem :=
  { sysC1 with colliders := [] }

/-- The trajectory of the C1 scenario with a fixed step of `1` toward the
box: each next position is the resolved result of proposing the previous
position moved by `1` along `−z` (x held at `0`). -/
noncomputable def posC1W : ℕ → Vec3
  | 0 => ⟨0, 0, 3⟩
  | n + 1 =>
    (CollisionSystem.checkCollisions sysC1 (posC1W n)
      ⟨0, (posC1W n).y, (posC1W n).z - 1⟩).2

/-! ## Lemmas about the JS `Set` model -/

lemma mem_setAdd {l : List ℕ} {a o : ℕ} : o ∈ setAdd l a ↔ o ∈ l ∨ o = a := by
  unfold setAdd
  split_ifs with h
  · constructor
    · exact Or.inl
    · rintro (h1 | rfl) <;> assumption
  · simp

lemma nodup_setAdd {l : List ℕ} (h : l.Nodup) (a : ℕ) : (setAdd l a).Nodup := by
  unfold setAdd
  split_ifs with hm
  · exact h
  · simp [List.nodup_append, h, hm]

namespace SpatialHashGrid

variable {α : Type*} [LinearOrderedField α] [FloorRing α]

/-! ## Field-level reduction lemmas for the grid operations -/

lemma insertObject_cells (g : SpatialHashGrid α) (o : ℕ) (px pz : α) (i : ℤ) :
    (g.insertObject o px pz).cells i =
      if i = g.getCellIndex px pz then setAdd (g.cells i) o else g.cells i := rfl

lemma insertObject_objectCells (g : SpatialHashGrid α) (o : ℕ) (px pz : α) (o' : ℕ) :
    (g.insertObject o px pz).objectCells o' =
      if o' = o then some (g.getCellIndex px pz) else g.objectCells o' := rfl

lemma removeObject_of_none {g : SpatialHashGrid α} {o : ℕ}
    (h : g.objectCells o = none) : g.removeObject o = g := by
  unfold removeObject
  rw [h]

lemma removeObject_cells_of_some {g : SpatialHashGrid α} {o : ℕ} {j : ℤ}
    (h : g.objectCells o = some j) (i : ℤ) :
    (g.removeObject o).cells i =
      if i = j then setDelete (g.cells i) o else g.cells i := by
  unfold removeObject
  rw [h]

lemma removeObject_objectCells_of_some {g : SpatialHashGrid α} {o : ℕ} {j : ℤ}
    (h : g.objectCells o = some j) (o' : ℕ) :
    (g.removeObject o).objectCells o' =
      if o' = o then none else g.objectCells o' := by
  unfold removeObject
  rw [h]

lemma objectCells_removeObject_self (g : SpatialHashGrid α) (o : ℕ) :
    (g.removeObject o).objectCells o = none := by
  cases htr : g.objectCells o with
  | none => rw [removeObject_of_none htr]; exact htr
  | some j => rw [removeObject_objectCells_of_some htr]; simp

/-! ## Preservation of the exclusive-membership invariant -/

lemma exclusiveMembership_insertObject {g : SpatialHashGrid α} {o : ℕ} {px pz : α}
    (hmem : g.ExclusiveMembership) (h : g.objectCells o = none) :
    (g.insertObject o px pz).ExclusiveMembership := by
  intro o' i
  rw [insertObject_cells, insertObject_objectCells]
  rcases eq_or_ne i (g.getCellIndex px pz) with hi | hi <;>
    rcases eq_or_ne o' o with ho | ho
  · subst hi; subst ho
    simp [mem_setAdd]
  · subst hi
    simpa [mem_setAdd, ho] using hmem o' (g.getCellIndex px pz)
  · subst ho
    simp [hi, hmem o' i, h, Ne.symm hi]
  · simp [hi, ho, hmem o' i]

lemma cellsNodup_insertObject {g : SpatialHashGrid α} (hnd : g.CellsNodup)
    (o : ℕ) (px pz : α) : (g.insertObject o px pz).CellsNodup := by
  intro i
  rw [insertObject_cells]
  split_ifs
  · exact nodup_setAdd (hnd i) o
  · exact hnd i

lemma exclusiveMembership_removeObject {g : SpatialHashGrid α} {o : ℕ}
    (hmem : g.ExclusiveMembership) (hnd : g.CellsNodup) :
    (g.removeObject o).ExclusiveMembership := by
  cases htr : g.objectCells o with
  | none => rw [removeObject_of_none htr]; exact hmem
  | some j =>
    intro o' i
    rw [removeObject_cells_of_some htr, removeObject_objectCells_of_some htr]
    unfold setDelete
    rcases eq_or_ne i j with hi | hi <;> rcases eq_or_ne o' o with ho | ho
    · subst hi; subst ho
      simp [(hnd i).mem_erase_iff]
    · subst hi
      have hm2 := hmem o' i
      simp [(hnd i).mem_erase_iff, ho, hm2]
    · subst ho
      simp [hi, hmem o' i, htr, Ne.symm hi]
    · simp [hi, ho, hmem o' i]

lemma cellsNodup_removeObject {g : SpatialHashGrid α} (hnd : g.CellsNodup)
    (o : ℕ) : (g.removeObject o).CellsNodup := by
  cases htr : g.objectCells o with
  | none => rw [removeObject_of_none htr]; exact hnd
  | some j =>
    intro i
    rw [removeObject_cells_of_some htr]
    unfold setDelete
    split_ifs
    · exact (hnd i).erase o
    · exact hnd i

lemma exclusiveMembership_updateObject {g : SpatialHashGrid α} {o : ℕ} {px pz : α}
    (hmem : g.ExclusiveMembership) (hnd : g.CellsNodup) :
    (g.updateObject o px pz).ExclusiveMembership :=
  exclusiveMembership_insertObject (exclusiveMembership_removeObject hmem hnd)
    (g.objectCells_removeObject_self o)

lemma cellsNodup_updateObject {g : SpatialHashGrid α} (hnd : g.CellsNodup)
    (o : ℕ) (px pz : α) : (g.updateObject o px pz).CellsNodup :=
  cellsNodup_insertObject (cellsNodup_removeObject hnd o) o px pz

lemma runOps_inv {g : SpatialHashGrid α} {ops : List (GridOp α)}
    (hmem : g.ExclusiveMembership) (hnd : g.CellsNodup)
    (hlegal : LegalOps g ops) :
    (runOps g ops).ExclusiveMembership ∧ (runOps g ops).CellsNodup := by
  induction ops generalizing g with
  | nil => exact ⟨hmem, hnd⟩
  | cons op rest ih =>
    obtain ⟨hop, hrest⟩ := hlegal
    have step : (applyOp g op).ExclusiveMembership ∧ (applyOp g op).CellsNodup := by
      cases op with
      | insertOp o px pz =>
        exact ⟨exclusiveMembership_insertObject hmem hop,
          cellsNodup_insertObject hnd o px pz⟩
      | updateOp o px pz =>
        exact ⟨exclusiveMembership_updateObject hmem hnd,
          cellsNodup_updateObject hnd o px pz⟩
      | removeOp o =>
        exact ⟨exclusiveMembership_removeObject hmem hnd,
          cellsNodup_removeObject hnd o⟩
    exact ih step.1 step.2 hrest

lemma exclusiveMembership_mkGrid (cellSize worldSizeX worldSizeZ : α) :
    (mkGrid cellSize worldSizeX worldSizeZ).ExclusiveMembership := by
  intro o i
  simp [mkGrid]

lemma cellsNodup_mkGrid (cellSize worldSizeX worldSizeZ : α) :
    (mkGrid cellSize worldSizeX worldSizeZ).CellsNodup := by
  intro i
  simp [mkGrid]

lemma wellFormedDims_mkGrid (cellSize worldSizeX worldSizeZ : α) :
    (mkGrid cellSize worldSizeX worldSizeZ).WellFormedDims :=
  ⟨rfl, rfl⟩

/-! ## Arithmetic of the clamped cell-coordinate computation -/

lemma le_ceil_mul {w c : α} (hc : 0 < c) : w ≤ (⌈w / c⌉ : α) * c := by
  have h := Int.le_ceil (w / c)
  calc w = w / c * c := by field_simp
    _ ≤ (⌈w / c⌉ : α) * c := mul_le_mul_of_nonneg_right h hc.le

lemma floor_clamped_nonneg {c : α} (hc : 0 < c) (w x : α) :
    0 ≤ ⌊max 0 (min x (w - 1/1000)) / c⌋ := by
  rw [Int.le_floor]
  push_cast
  exact div_nonneg (le_max_left 0 _) hc.le

lemma floor_clamped_lt_ceil {c w : α} (hc : 0 < c) (hw : 0 < w) (x : α) :
    ⌊max 0 (min x (w - 1/1000)) / c⌋ < ⌈w / c⌉ := by
  rw [Int.floor_lt, div_lt_iff₀ hc]
  have hwc : w ≤ (⌈w / c⌉ : α) * c := le_ceil_mul hc
  have hcase : max 0 (min x (w - 1/1000)) < w := by
    rcases le_or_lt (min x (w - 1/1000)) 0 with h | h
    · rw [max_eq_left h]; exact hw
    · rw [max_eq_right h.le]
      have h1 : min x (w - 1/1000) ≤ w - 1/1000 := min_le_right _ _
      have h2 : (0 : α) < 1/1000 := by norm_num
      linarith
  linarith

/-- Clamping an already non-positive coordinate gives the same clamped value
as coordinate `0` (both clamp to `max 0 (min 0 (w − ε))`, which is `0`). -/
lemma clamped_of_nonpos {x : α} (hx : x ≤ 0) (w : α) :
    max 0 (min x (w - 1/1000)) = max 0 (min 0 (w - 1/1000)) := by
  have l1 : max 0 (min x (w - 1/1000)) = 0 :=
    max_eq_left ((min_le_left _ _).trans hx)
  have l2 : max 0 (min 0 (w - 1/1000)) = 0 :=
    max_eq_left (min_le_left 0 _)
  rw [l1, l2]

/-- Clamping a coordinate at or beyond the world size gives the same clamped
value as the boundary representative `w − ε`. -/
lemma clamped_of_ge {x w : α} (hx : w ≤ x) :
    max 0 (min x (w - 1/1000)) = max 0 (min (w - 1/1000) (w - 1/1000)) := by
  have h1 : w - 1/1000 ≤ x := by
    have : (0 : α) < 1/1000 := by norm_num
    linarith
  rw [min_eq_right h1, min_self]

lemma getCellIndex_def (g : SpatialHashGrid α) (x z : α) :
    g.getCellIndex x z =
      ⌊max 0 (min x (g.worldSizeX - 1/1000)) / g.cellSize⌋ +
      ⌊max 0 (min z (g.worldSizeZ - 1/1000)) / g.cellSize⌋ * g.numCellsX := rfl

lemma getCellIndex_bounds {g : SpatialHashGrid α} (hwf : g.WellFormedDims)
    (hc : 0 < g.cellSize) (hwx : 0 < g.worldSizeX) (hwz : 0 < g.worldSizeZ)
    (x z : α) :
    0 ≤ g.getCellIndex x z ∧ g.getCellIndex x z < g.numCellsX * g.numCellsZ := by
  rw [getCellIndex_def]
  have hx0 := floor_clamped_nonneg hc g.worldSizeX x
  have hz0 := floor_clamped_nonneg hc g.worldSizeZ z
  have hx1 : ⌊max 0 (min x (g.worldSizeX - 1/1000)) / g.cellSize⌋ < g.numCellsX := by
    rw [hwf.1]; exact floor_clamped_lt_ceil hc hwx x
  have hz1 : ⌊max 0 (min z (g.worldSizeZ - 1/1000)) / g.cellSize⌋ < g.numCellsZ := by
    rw [hwf.2]; exact floor_clamped_lt_ceil hc hwz z
  constructor
  · have hnx : (0 : ℤ) ≤ g.numCellsX := le_of_lt (lt_of_le_of_lt hx0 hx1)
    exact add_nonneg hx0 (mul_nonneg hz0 hnx)
  · nlinarith

/-! ## Membership in the range query result -/

lemma mem_foldl_setAdd (l : List ℕ) (acc : List ℕ) (o : ℕ) :
    o ∈ l.foldl setAdd acc ↔ o ∈ acc ∨ o ∈ l := by
  induction l generalizing acc with
  | nil => simp
  | cons a t ih =>
    rw [List.foldl_cons, ih, mem_setAdd]
    simp only [List.mem_cons]
    tauto

lemma mem_foldl_inner (f : ℤ → List ℕ) (xs : List ℤ) (acc : List ℕ) (o : ℕ) :
    o ∈ xs.foldl (fun acc2 x => (f x).foldl setAdd acc2) acc ↔
      o ∈ acc ∨ ∃ x ∈ xs, o ∈ f x := by
  induction xs generalizing acc with
  | nil => simp
  | cons a t ih =>
    rw [List.foldl_cons, ih, mem_foldl_setAdd]
    simp only [List.mem_cons]
    constructor
    · rintro ((h | h) | ⟨x, hx, hfx⟩)
      · exact Or.inl h
      · exact Or.inr ⟨a, Or.inl rfl, h⟩
      · exact Or.inr ⟨x, Or.inr hx, hfx⟩
    · rintro (h | ⟨x, (rfl | hx), hfx⟩)
      · exact Or.inl (Or.inl h)
      · exact Or.inl (Or.inr hfx)
      · exact Or.inr ⟨x, hx, hfx⟩

lemma mem_intRange {lo hi x : ℤ} : x ∈ intRange lo hi ↔ lo ≤ x ∧ x ≤ hi := by
  unfold intRange
  constructor
  · intro hx
    obtain ⟨k, hk, hkx⟩ := List.mem_map.mp hx
    rw [List.mem_range] at hk
    omega
  · rintro ⟨h1, h2⟩
    exact List.mem_map.mpr ⟨(x - lo).toNat, List.mem_range.mpr (by omega), by omega⟩

lemma mem_foldl_of_step {P : ℤ → Prop} {o : ℕ} (f : List ℕ → ℤ → List ℕ)
    (hstep : ∀ acc z, o ∈ f acc z ↔ o ∈ acc ∨ P z) (zs : List ℤ) (acc : List ℕ) :
    o ∈ zs.foldl f acc ↔ o ∈ acc ∨ ∃ z ∈ zs, P z := by
  induction zs generalizing acc with
  | nil => simp
  | cons a t ih =>
    rw [List.foldl_cons, ih, hstep]
    simp only [List.mem_cons]
    constructor
    · rintro ((h | h) | ⟨z, hz, hp⟩)
      · exact Or.inl h
      · exact Or.inr ⟨a, Or.inl rfl, h⟩
      · exact Or.inr ⟨z, Or.inr hz, hp⟩
    · rintro (h | ⟨z, (rfl | hz), hp⟩)
      · exact Or.inl (Or.inl h)
      · exact Or.inl (Or.inr hp)
      · exact Or.inr ⟨z, hz, hp⟩

lemma mem_findNearbyObjects (g : SpatialHashGrid α) (px pz radius : α) (o : ℕ) :
    o ∈ g.findNearbyObjects px pz radius ↔
      ∃ cz ∈ intRange ⌊max 0 (pz - radius) / g.cellSize⌋
          ⌊min (g.worldSizeZ - 1/1000) (pz + radius) / g.cellSize⌋,
        ∃ cx ∈ intRange ⌊max 0 (px - radius) / g.cellSize⌋
          ⌊min (g.worldSizeX - 1/1000) (px + radius) / g.cellSize⌋,
        o ∈ g.cellAt (cx + cz * g.numCellsX) := by
  unfold findNearbyObjects
  rw [mem_foldl_of_step _ (fun acc z => mem_foldl_inner
    (fun x => g.cellAt (x + z * g.numCellsX)) _ acc o)]
  simp

/-! ## Claims about the spatial hash grid -/

/-- Claim C3, counterexample: starting from a fresh 100×100 grid with cell
size 5, the call sequence `insert 1 (0,0); insert 1 (6,0)` (allowed by the
claim's "arbitrary objects and positions") leaves object 1 in cell 0's set
while the tracking map records cell 1 for it, so the exclusive-membership
invariant fails. -/
theorem grid_exclusive_membership_counterexample :
    1 ∈ gridC3.cells 0 ∧ gridC3.objectCells 1 = some 1 ∧
      ¬ gridC3.ExclusiveMembership := by
  have h1 : gridC3.cells 0 = [1] := by
    norm_num [gridC3, gridQ, runOps, applyOp, insertObject, getCellIndex,
      mkGrid, setAdd, min_def, max_def]
  have h2 : gridC3.objectCells 1 = some 1 := by
    norm_num [gridC3, gridQ, runOps, applyOp, insertObject, getCellIndex,
      mkGrid, min_def, max_def]
  refine ⟨by rw [h1]; exact List.mem_singleton.mpr rfl, h2, fun hinv => ?_⟩
  have h3 := (hinv 1 0).mp (by rw [h1]; exact List.mem_singleton.mpr rfl)
  rw [h2] at h3
  exact absurd h3 (by norm_num)

/-- Claim C3 (amended): after any sequence of `insertObject`, `updateObject`
and `removeObject` calls on a freshly constructed grid in which every
`insertObject` call respects its documented precondition (the object is not
currently tracked; `updateObject`/`removeObject` are unrestricted), every
object in the tracking map appears in exactly the one cell recorded for it,
and no object appears in any cell without a tracking-map entry.  (Without the
precondition the invariant fails, see the counterexample.) -/
theorem grid_exclusive_membership (cellSize worldSizeX worldSizeZ : α)
    (ops : List (GridOp α))
    (hlegal : LegalOps (mkGrid cellSize worldSizeX worldSizeZ) ops) :
    (runOps (mkGrid cellSize worldSizeX worldSizeZ) ops).ExclusiveMembership :=
  (runOps_inv (exclusiveMembership_mkGrid cellSize worldSizeX worldSizeZ)
    (cellsNodup_mkGrid cellSize worldSizeX worldSizeZ) hlegal).1

/-- Witness for C3: a concrete legal call sequence (insert 1, insert 2,
update 1, remove 2) on the 100×100 grid satisfies the invariant. -/
theorem grid_exclusive_membership_witness :
    LegalOps gridQ
      [GridOp.insertOp 1 0 0, GridOp.insertOp 2 6 0,
        GridOp.updateOp 1 12 0, GridOp.removeOp 2] ∧
    (runOps gridQ
      [GridOp.insertOp 1 0 0, GridOp.insertOp 2 6 0,
        GridOp.updateOp 1 12 0, GridOp.removeOp 2]).ExclusiveMembership := by
  have hlegal : LegalOps gridQ
      [GridOp.insertOp 1 0 0, GridOp.insertOp 2 6 0,
        GridOp.updateOp 1 12 0, GridOp.removeOp 2] := by
    refine ⟨rfl, ?_, trivial, trivial, trivial⟩
    norm_num [gridQ, mkGrid, applyOp, insertObject]
  exact ⟨hlegal, grid_exclusive_membership 5 100 100 _ hlegal⟩

/-- Claim C7: for coordinates outside `[0,worldSizeX)×[0,worldSizeZ)`,
`getCellIndex` returns the same cell index as the nearest in-bounds boundary
point (`0` on the low side, the boundary representative `worldSize − 0.001`
on the high side), and the index never leaves `[0, numCellsX*numCellsZ)`. -/
theorem grid_getCellIndex_clamping (g : SpatialHashGrid α)
    (hwf : g.WellFormedDims) (hc : 0 < g.cellSize)
    (hwx : 0 < g.worldSizeX) (hwz : 0 < g.worldSizeZ) (x z : α) :
    (x < 0 → g.getCellIndex x z = g.getCellIndex 0 z) ∧
    (g.worldSizeX ≤ x →
      g.getCellIndex x z = g.getCellIndex (g.worldSizeX - 1/1000) z) ∧
    (z < 0 → g.getCellIndex x z = g.getCellIndex x 0) ∧
    (g.worldSizeZ ≤ z →
      g.getCellIndex x z = g.getCellIndex x (g.worldSizeZ - 1/1000)) ∧
    (0 ≤ g.getCellIndex x z ∧ g.getCellIndex x z < g.numCellsX * g.numCellsZ) := by
  refine ⟨?_, ?_, ?_, ?_, getCellIndex_bounds hwf hc hwx hwz x z⟩
  · intro hx
    rw [getCellIndex_def, getCellIndex_def, clamped_of_nonpos hx.le]
  · intro hx
    rw [getCellIndex_def, getCellIndex_def, clamped_of_ge hx]
  · intro hz
    rw [getCellIndex_def, getCellIndex_def, clamped_of_nonpos hz.le]
  · intro hz
    rw [getCellIndex_def, getCellIndex_def, clamped_of_ge hz]

/-- Witness for C7 at a concrete out-of-bounds point `(150, −3)` on the
100×100 grid: both clamp equalities and the in-range bound hold. -/
theorem grid_getCellIndex_clamping_witness :
    gridQ.getCellIndex 150 (-3) = gridQ.getCellIndex (gridQ.worldSizeX - 1/1000) (-3) ∧
    gridQ.getCellIndex 150 (-3) = gridQ.getCellIndex 150 0 ∧
    0 ≤ gridQ.getCellIndex 150 (-3) ∧
    gridQ.getCellIndex 150 (-3) < gridQ.numCellsX * gridQ.numCellsZ := by
  have h := grid_getCellIndex_clamping gridQ ⟨rfl, rfl⟩
    (by norm_num [gridQ, mkGrid]) (by norm_num [gridQ, mkGrid])
    (by norm_num [gridQ, mkGrid]) 150 (-3)
  exact ⟨h.2.1 (by norm_num [gridQ, mkGrid]), h.2.2.1 (by norm_num),
    h.2.2.2.2⟩

/-- Claim C8, counterexample: on the 100×100 grid with object 1 in the cell
containing the in-bounds position `(7,7)`, the query at `(7,7)` with the
negative radius `−5` returns the empty set rather than the members of the
containing cell (the computed cell rectangle is inverted and the loops do
not run). -/
theorem grid_findNearby_counterexample :
    (0:ℚ) ≤ 7 ∧ (7:ℚ) < gridC8.worldSizeX ∧ ((-5:ℚ) ≤ 0) ∧
    gridC8.findNearbyObjects 7 7 (-5) = [] ∧
    1 ∈ gridC8.cells (gridC8.getCellIndex 7 7) := by
  refine ⟨by norm_num, by norm_num [gridC8, gridQ, mkGrid, insertObject],
    by norm_num, ?_, ?_⟩
  · norm_num [gridC8, gridQ, mkGrid, insertObject, findNearbyObjects,
      intRange, min_def, max_def, Int.toNat_of_nonpos]
  · have h1 : gridC8.getCellIndex 7 7 = 21 := by
      norm_num [gridC8, gridQ, mkGrid, insertObject, getCellIndex,
        min_def, max_def]
    have h2 : gridC8.cells 21 = [1] := by
      norm_num [gridC8, gridQ, mkGrid, insertObject, getCellIndex, setAdd,
        min_def, max_def]
    rw [h1, h2]
    exact List.mem_singleton.mpr rfl

/-- Claim C8 (amended): for an in-bounds position and radius `≤ 0` the query
is total and degenerates to at most the containing cell: every returned
object is a member of the containing cell's set; and for radius exactly `0`
with the position at most `worldSize − 0.001` on both axes it returns
exactly the containing cell's members.  (For sufficiently negative radius
the computed rectangle is inverted and the result is empty, so equality with
the containing cell's members fails in general — see the counterexample.) -/
theorem grid_findNearby_degenerate (g : SpatialHashGrid α)
    (hwf : g.WellFormedDims) (hc : 0 < g.cellSize) (px pz radius : α)
    (hr : radius ≤ 0) (hpx0 : 0 ≤ px) (hpxW : px < g.worldSizeX)
    (hpz0 : 0 ≤ pz) (hpzW : pz < g.worldSizeZ) :
    (∀ o ∈ g.findNearbyObjects px pz radius, o ∈ g.cells (g.getCellIndex px pz)) ∧
    (radius = 0 → px ≤ g.worldSizeX - 1/1000 → pz ≤ g.worldSizeZ - 1/1000 →
      ∀ o, o ∈ g.findNearbyObjects px pz radius ↔
        o ∈ g.cells (g.getCellIndex px pz)) := by
  have hwx : 0 < g.worldSizeX := lt_of_le_of_lt hpx0 hpxW
  have hwz : 0 < g.worldSizeZ := lt_of_le_of_lt hpz0 hpzW
  have keyx1 : ⌊min (g.worldSizeX - 1/1000) (px + radius) / g.cellSize⌋ ≤
      ⌊max 0 (min px (g.worldSizeX - 1/1000)) / g.cellSize⌋ := by
    apply Int.floor_le_floor
    gcongr
    calc min (g.worldSizeX - 1/1000) (px + radius)
        ≤ min (g.worldSizeX - 1/1000) px := by gcongr; linarith
      _ = min px (g.worldSizeX - 1/1000) := min_comm _ _
      _ ≤ max 0 (min px (g.worldSizeX - 1/1000)) := le_max_right _ _
  have keyx2 : ⌊max 0 (min px (g.worldSizeX - 1/1000)) / g.cellSize⌋ ≤
      ⌊max 0 (px - radius) / g.cellSize⌋ := by
    apply Int.floor_le_floor
    gcongr
    calc min px (g.worldSizeX - 1/1000) ≤ px := min_le_left _ _
      _ ≤ px - radius := by linarith
  have keyz1 : ⌊min (g.worldSizeZ - 1/1000) (pz + radius) / g.cellSize⌋ ≤
      ⌊max 0 (min pz (g.worldSizeZ - 1/1000)) / g.cellSize⌋ := by
    apply Int.floor_le_floor
    gcongr
    calc min (g.worldSizeZ - 1/1000) (pz + radius)
        ≤ min (g.worldSizeZ - 1/1000) pz := by gcongr; linarith
      _ = min pz (g.worldSizeZ - 1/1000) := min_comm _ _
      _ ≤ max 0 (min pz (g.worldSizeZ - 1/1000)) := le_max_right _ _
  have keyz2 : ⌊max 0 (min pz (g.worldSizeZ - 1/1000)) / g.cellSize⌋ ≤
      ⌊max 0 (pz - radius) / g.cellSize⌋ := by
    apply Int.floor_le_floor
    gcongr
    calc min pz (g.worldSizeZ - 1/1000) ≤ pz := min_le_left _ _
      _ ≤ pz - radius := by linarith
  constructor
  · intro o ho
    rw [mem_findNearbyObjects] at ho
    obtain ⟨cz, hcz, cx, hcx, hcell⟩ := ho
    rw [mem_intRange] at hcz hcx
    have hx : cx = ⌊max 0 (min px (g.worldSizeX - 1/1000)) / g.cellSize⌋ :=
      le_antisymm (hcx.2.trans keyx1) (keyx2.trans hcx.1)
    have hz : cz = ⌊max 0 (min pz (g.worldSizeZ - 1/1000)) / g.cellSize⌋ :=
      le_antisymm (hcz.2.trans keyz1) (keyz2.trans hcz.1)
    subst hx; subst hz
    rw [getCellIndex_def]
    unfold cellAt at hcell
    split_ifs at hcell with hrange
    · exact hcell
    · simp at hcell
  · intro hr0 hpxe hpze o
    subst hr0
    have e1 : max 0 (px - 0) = max 0 (min px (g.worldSizeX - 1/1000)) := by
      rw [sub_zero, max_eq_right hpx0, min_eq_left hpxe, max_eq_right hpx0]
    have e2 : min (g.worldSizeX - 1/1000) (px + 0) =
        max 0 (min px (g.worldSizeX - 1/1000)) := by
      rw [add_zero, min_comm, min_eq_left hpxe, max_eq_right hpx0]
    have e3 : max 0 (pz - 0) = max 0 (min pz (g.worldSizeZ - 1/1000)) := by
      rw [sub_zero, max_eq_right hpz0, min_eq_left hpze, max_eq_right hpz0]
    have e4 : min (g.worldSizeZ - 1/1000) (pz + 0) =
        max 0 (min pz (g.worldSizeZ - 1/1000)) := by
      rw [add_zero, min_comm, min_eq_left hpze, max_eq_right hpz0]
    have hb := getCellIndex_bounds hwf hc hwx hwz px pz
    rw [getCellIndex_def] at hb
    rw [mem_findNearbyObjects, getCellIndex_def]
    constructor
    · rintro ⟨cz, hcz, cx, hcx, hcell⟩
      rw [mem_intRange, e1, e2] at hcx
      rw [mem_intRange, e3, e4] at hcz
      have hx : cx = ⌊max 0 (min px (g.worldSizeX - 1/1000)) / g.cellSize⌋ :=
        le_antisymm hcx.2 hcx.1
      have hz : cz = ⌊max 0 (min pz (g.worldSizeZ - 1/1000)) / g.cellSize⌋ :=
        le_antisymm hcz.2 hcz.1
      subst hx; subst hz
      unfold cellAt at hcell
      rwa [if_pos hb] at hcell
    · intro hcells
      refine ⟨⌊max 0 (min pz (g.worldSizeZ - 1/1000)) / g.cellSize⌋, ?_,
        ⌊max 0 (min px (g.worldSizeX - 1/1000)) / g.cellSize⌋, ?_, ?_⟩
      · rw [mem_intRange, e3, e4]
        exact ⟨le_refl _, le_refl _⟩
      · rw [mem_intRange, e1, e2]
        exact ⟨le_refl _, le_refl _⟩
      · unfold cellAt
        rwa [if_pos hb]

/-- Witness for C8 at the concrete grid `gridC8`, position `(7,7)`, radius
`0`: the query returns exactly the containing cell's members, here object 1. -/
theorem grid_findNearby_degenerate_witness :
    (1 ∈ gridC8.findNearbyObjects 7 7 0 ↔
      1 ∈ gridC8.cells (gridC8.getCellIndex 7 7)) ∧
    (∀ o ∈ gridC8.findNearbyObjects 7 7 0,
      o ∈ gridC8.cells (gridC8.getCellIndex 7 7)) := by
  have h := grid_findNearby_degenerate gridC8 ⟨rfl, rfl⟩
    (by norm_num [gridC8, gridQ, mkGrid, insertObject]) 7 7 0 le_rfl
    (by norm_num) (by norm_num [gridC8, gridQ, mkGrid, insertObject])
    (by norm_num) (by norm_num [gridC8, gridQ, mkGrid, insertObject])
  exact ⟨h.2 rfl (by norm_num [gridC8, gridQ, mkGrid, insertObject])
    (by norm_num [gridC8, gridQ, mkGrid, insertObject]) 1, h.1⟩

/-- Claim C9: `updateObject` leaves the grid in the same state as
`removeObject` followed by `insertObject`; if the object is untracked it
equals a plain `insertObject`. -/
theorem grid_updateObject_equiv (g : SpatialHashGrid α) (o : ℕ) (px pz : α) :
    g.updateObject o px pz = (g.removeObject o).insertObject o px pz ∧
    (g.objectCells o = none → g.updateObject o px pz = g.insertObject o px pz) :=
  ⟨rfl, fun h => by unfold updateObject; rw [removeObject_of_none h]⟩

/-- Witness for C9: on the fresh 100×100 grid, object 3 is untracked and
`updateObject` equals `insertObject` at `(7,7)`. -/
theorem grid_updateObject_equiv_witness :
    gridQ.objectCells 3 = none ∧
    gridQ.updateObject 3 7 7 = gridQ.insertObject 3 7 7 :=
  ⟨rfl, (grid_updateObject_equiv gridQ 3 7 7).2 rfl⟩

end SpatialHashGrid

/-! ## Clamp algebra for the closest-point computation -/

lemma clamp_le_right {a b x : ℝ} (hab : a ≤ b) : max a (min x b) ≤ b :=
  max_le hab (min_le_right _ _)

lemma clamp_eq_of_mem {a b x : ℝ} (h1 : a ≤ x) (h2 : x ≤ b) :
    max a (min x b) = x := by
  rw [min_eq_left h2, max_eq_right h1]

lemma clamp_eq_right_of_pos {a b x : ℝ} (hab : a ≤ b)
    (h : 0 < x - max a (min x b)) : max a (min x b) = b := by
  rcases le_or_lt x b with hxb | hxb
  · exfalso
    rw [min_eq_left hxb] at h
    have := le_max_right a x
    linarith
  · rw [min_eq_right hxb.le, max_eq_right hab]

lemma clamp_eq_left_of_neg {a b x : ℝ}
    (h : x - max a (min x b) < 0) : max a (min x b) = a := by
  rcases le_or_lt a (min x b) with ham | ham
  · exfalso
    rw [max_eq_right ham] at h
    have := min_le_left x b
    linarith
  · rw [max_eq_left ham.le]

/-- Moving a point away from its clamped value by a non-negative multiple of
its offset does not change the clamped value. -/
lemma clamp_shift {a b x u : ℝ} (hab : a ≤ b) (hu : 0 ≤ u) :
    max a (min (max a (min x b) + (x - max a (min x b)) * u) b) =
      max a (min x b) := by
  rcases lt_trichotomy (x - max a (min x b)) 0 with hneg | hzero | hpos
  · have hca : max a (min x b) = a := clamp_eq_left_of_neg hneg
    have harg : max a (min x b) + (x - max a (min x b)) * u ≤ a := by
      have hm : (x - max a (min x b)) * u ≤ 0 :=
        mul_nonpos_iff.mpr (Or.inr ⟨hneg.le, hu⟩)
      linarith [hca.ge]
    rw [hca]
    rw [hca] at harg
    exact max_eq_left ((min_le_left _ _).trans harg)
  · have harg : max a (min x b) + (x - max a (min x b)) * u = max a (min x b) := by
      rw [hzero, zero_mul, add_zero]
    rw [harg]
    exact clamp_eq_of_mem (le_max_left _ _) (clamp_le_right hab)
  · have hcb : max a (min x b) = b := clamp_eq_right_of_pos hab hpos
    have harg : b ≤ max a (min x b) + (x - max a (min x b)) * u := by
      have hm : 0 ≤ (x - max a (min x b)) * u := mul_nonneg hpos.le hu
      linarith [hcb.le]
    rw [hcb] at harg ⊢
    rw [min_eq_right harg, max_eq_right hab]

/-! ## Geometry of a single resolution step -/

lemma distToCollider_nonneg (c : WallCollider) (p : Vec3) :
    0 ≤ distToCollider c p := Real.sqrt_nonneg _

lemma distToCollider_eq_zero_iff (c : WallCollider) (p : Vec3) :
    distToCollider c p = 0 ↔ deltaX c p = 0 ∧ deltaZ c p = 0 := by
  unfold distToCollider
  rw [Real.sqrt_eq_zero (by positivity)]
  constructor
  · intro h
    constructor
    · have h1 : deltaX c p ^ 2 = 0 := by nlinarith [sq_nonneg (deltaZ c p), sq_nonneg (deltaX c p)]
      exact (pow_eq_zero_iff two_ne_zero).mp h1
    · have h1 : deltaZ c p ^ 2 = 0 := by nlinarith [sq_nonneg (deltaZ c p), sq_nonneg (deltaX c p)]
      exact (pow_eq_zero_iff two_ne_zero).mp h1
  · rintro ⟨h1, h2⟩
    rw [h1, h2]
    ring

/-- After a positive-distance push, the distance to the collider is exactly
the player radius. -/
lemma dist_push_eq (radius : ℝ) (c : WallCollider) (p : Vec3)
    (hx : c.boxMinX ≤ c.boxMaxX) (hz : c.boxMinZ ≤ c.boxMaxZ)
    (hd : 0 < distToCollider c p) (hrd : distToCollider c p < radius) :
    distToCollider c
      { p with
        x := p.x + deltaX c p / distToCollider c p * (radius - distToCollider c p)
        z := p.z + deltaZ c p / distToCollider c p * (radius - distToCollider c p) } =
      radius := by
  have hdne : distToCollider c p ≠ 0 := hd.ne'
  have hu : (0 : ℝ) ≤ radius / distToCollider c p :=
    div_nonneg (by linarith) hd.le
  set q : Vec3 :=
    { p with
      x := p.x + deltaX c p / distToCollider c p * (radius - distToCollider c p)
      z := p.z + deltaZ c p / distToCollider c p * (radius - distToCollider c p) }
    with hq
  have hqx : q.x = max c.boxMinX (min p.x c.boxMaxX) +
      (p.x - max c.boxMinX (min p.x c.boxMaxX)) * (radius / distToCollider c p) := by
    rw [hq]
    show p.x + deltaX c p / distToCollider c p * (radius - distToCollider c p) = _
    unfold deltaX closestX
    field_simp
    ring
  have hqz : q.z = max c.boxMinZ (min p.z c.boxMaxZ) +
      (p.z - max c.boxMinZ (min p.z c.boxMaxZ)) * (radius / distToCollider c p) := by
    rw [hq]
    show p.z + deltaZ c p / distToCollider c p * (radius - distToCollider c p) = _
    unfold deltaZ closestZ
    field_simp
    ring
  have hcx : closestX c q = closestX c p := by
    unfold closestX
    rw [hqx]
    exact clamp_shift hx hu
  have hcz : closestZ c q = closestZ c p := by
    unfold closestZ
    rw [hqz]
    exact clamp_shift hz hu
  have hdx : deltaX c q = deltaX c p * (radius / distToCollider c p) := by
    unfold deltaX
    rw [hcx, hqx]
    unfold closestX
    ring
  have hdz : deltaZ c q = deltaZ c p * (radius / distToCollider c p) := by
    unfold deltaZ
    rw [hcz, hqz]
    unfold closestZ
    ring
  unfold distToCollider
  rw [hdx, hdz]
  have hsplit : (deltaX c p * (radius / distToCollider c p)) ^ 2 +
      (deltaZ c p * (radius / distToCollider c p)) ^ 2 =
      (radius / distToCollider c p) ^ 2 * (deltaX c p ^ 2 + deltaZ c p ^ 2) := by
    ring
  rw [hsplit, Real.sqrt_mul (sq_nonneg _), Real.sqrt_sq hu]
  show radius / distToCollider c p * distToCollider c p = radius
  field_simp

lemma dist_snap_x (radius v : ℝ) (c : WallCollider) (p : Vec3)
    (hr : 0 < radius)
    (hzin : c.boxMinZ ≤ p.z ∧ p.z ≤ c.boxMaxZ)
    (hv : v = c.boxMinX - radius ∨ v = c.boxMaxX + radius)
    (hx : c.boxMinX ≤ c.boxMaxX) :
    distToCollider c { p with x := v } = radius := by
  have hcz : closestZ c { p with x := v } = p.z :=
    clamp_eq_of_mem hzin.1 hzin.2
  have hdz : deltaZ c { p with x := v } = 0 := by
    unfold deltaZ
    rw [hcz]
    show p.z - p.z = 0
    ring
  rcases hv with rfl | rfl
  · have hcx : closestX c { p with x := c.boxMinX - radius } = c.boxMinX := by
      unfold closestX
      show max c.boxMinX (min (c.boxMinX - radius) c.boxMaxX) = c.boxMinX
      rw [min_eq_left (by linarith), max_eq_left (by linarith)]
    have hdx : deltaX c { p with x := c.boxMinX - radius } = -radius := by
      unfold deltaX
      rw [hcx]
      show c.boxMinX - radius - c.boxMinX = -radius
      ring
    unfold distToCollider
    rw [hdx, hdz]
    rw [show (-radius) ^ 2 + (0:ℝ) ^ 2 = radius ^ 2 by ring]
    exact Real.sqrt_sq hr.le
  · have hcx : closestX c { p with x := c.boxMaxX + radius } = c.boxMaxX := by
      unfold closestX
      show max c.boxMinX (min (c.boxMaxX + radius) c.boxMaxX) = c.boxMaxX
      rw [min_eq_right (by linarith), max_eq_right hx]
    have hdx : deltaX c { p with x := c.boxMaxX + radius } = radius := by
      unfold deltaX
      rw [hcx]
      show c.boxMaxX + radius - c.boxMaxX = radius
      ring
    unfold distToCollider
    rw [hdx, hdz]
    rw [show radius ^ 2 + (0:ℝ) ^ 2 = radius ^ 2 by ring]
    exact Real.sqrt_sq hr.le

lemma dist_snap_z (radius v : ℝ) (c : WallCollider) (p : Vec3)
    (hr : 0 < radius)
    (hxin : c.boxMinX ≤ p.x ∧ p.x ≤ c.boxMaxX)
    (hv : v = c.boxMinZ - radius ∨ v = c.boxMaxZ + radius)
    (hz : c.boxMinZ ≤ c.boxMaxZ) :
    distToCollider c { p with z := v } = radius := by
  have hcx : closestX c { p with z := v } = p.x :=
    clamp_eq_of_mem hxin.1 hxin.2
  have hdx : deltaX c { p with z := v } = 0 := by
    unfold deltaX
    rw [hcx]
    show p.x - p.x = 0
    ring
  rcases hv with rfl | rfl
  · have hcz : closestZ c { p with z := c.boxMinZ - radius } = c.boxMinZ := by
      unfold closestZ
      show max c.boxMinZ (min (c.boxMinZ - radius) c.boxMaxZ) = c.boxMinZ
      rw [min_eq_left (by linarith), max_eq_left (by linarith)]
    have hdz : deltaZ c { p with z := c.boxMinZ - radius } = -radius := by
      unfold deltaZ
      rw [hcz]
      show c.boxMinZ - radius - c.boxMinZ = -radius
      ring
    unfold distToCollider
    rw [hdx, hdz]
    rw [show (0:ℝ) ^ 2 + (-radius) ^ 2 = radius ^ 2 by ring]
    exact Real.sqrt_sq hr.le
  · have hcz : closestZ c { p with z := c.boxMaxZ + radius } = c.boxMaxZ := by
      unfold closestZ
      show max c.boxMinZ (min (c.boxMaxZ + radius) c.boxMaxZ) = c.boxMaxZ
      rw [min_eq_right (by linarith), max_eq_right hz]
    have hdz : deltaZ c { p with z := c.boxMaxZ + radius } = radius := by
      unfold deltaZ
      rw [hcz]
      show c.boxMaxZ + radius - c.boxMaxZ = radius
      ring
    unfold distToCollider
    rw [hdx, hdz]
    rw [show (0:ℝ) ^ 2 + radius ^ 2 = radius ^ 2 by ring]
    exact Real.sqrt_sq hr.le

/-- The axis ejection always lands on one of the four snapped positions. -/
lemma ejectFromBox_cases (radius : ℝ) (c : WallCollider) (p : Vec3) :
    ejectFromBox radius c p = { p with x := c.boxMinX - radius } ∨
    ejectFromBox radius c p = { p with x := c.boxMaxX + radius } ∨
    ejectFromBox radius c p = { p with z := c.boxMinZ - radius } ∨
    ejectFromBox radius c p = { p with z := c.boxMaxZ + radius } := by
  simp only [ejectFromBox]
  split_ifs <;> simp

/-- A collider at distance at least the radius produces no adjustment. -/
lemma resolveAgainst_of_far {radius : ℝ} {c : WallCollider} {p : Vec3}
    (h : radius ≤ distToCollider c p) : resolveAgainst radius c p = p := by
  simp only [resolveAgainst]
  rw [if_neg (not_lt.mpr h)]

/-- Core no-penetration property of a single resolution step: whatever branch
is taken, the adjusted position is at distance at least `radius` from the
box (exactly `radius` when an adjustment happens). -/
lemma dist_resolveAgainst_ge (radius : ℝ) (c : WallCollider) (p : Vec3)
    (hr : 0 < radius) (hx : c.boxMinX ≤ c.boxMaxX) (hz : c.boxMinZ ≤ c.boxMaxZ) :
    radius ≤ distToCollider c (resolveAgainst radius c p) := by
  simp only [resolveAgainst]
  split_ifs with h1 h2 h3
  · exact (dist_push_eq radius c p hx hz h2.2 h1).ge
  · obtain ⟨hdx, hdz⟩ := (distToCollider_eq_zero_iff c p).mp h3
    have hclx : closestX c p = p.x := by
      unfold deltaX at hdx
      linarith
    have hclz : closestZ c p = p.z := by
      unfold deltaZ at hdz
      linarith
    have hpx : c.boxMinX ≤ p.x ∧ p.x ≤ c.boxMaxX := by
      constructor
      · rw [← hclx]; exact le_max_left _ _
      · rw [← hclx]; exact clamp_le_right hx
    have hpz2 : c.boxMinZ ≤ p.z ∧ p.z ≤ c.boxMaxZ := by
      constructor
      · rw [← hclz]; exact le_max_left _ _
      · rw [← hclz]; exact clamp_le_right hz
    rcases ejectFromBox_cases radius c p with he | he | he | he <;> rw [he]
    · exact (dist_snap_x radius _ c p hr hpz2 (Or.inl rfl) hx).ge
    · exact (dist_snap_x radius _ c p hr hpz2 (Or.inr rfl) hx).ge
    · exact (dist_snap_z radius _ c p hr hpx (Or.inl rfl) hz).ge
    · exact (dist_snap_z radius _ c p hr hpx (Or.inr rfl) hz).ge
  · exfalso
    have hd0 : 0 ≤ distToCollider c p := distToCollider_nonneg c p
    push_neg at h2
    have hle := h2 (by linarith)
    exact h3 (le_antisymm hle hd0)
  · linarith [not_lt.mp h1]

/-- `distToCollider` does not look at the Y coordinate. -/
lemma distToCollider_setY (c : WallCollider) (v : Vec3) (w : ℝ) :
    distToCollider c { v with y := w } = distToCollider c v := rfl

/-! ## Reduction of `checkCollisions` on the concrete systems -/

namespace CollisionSystem

lemma checkCollisions_sysC1 (cur prop : Vec3) :
    (checkCollisions sysC1 cur prop).2 =
      { resolveAgainst (1/2) boxC1 prop with y := cur.y } := rfl

lemma checkCollisions_sysC2 (cur prop : Vec3) :
    (checkCollisions sysC2 cur prop).2 =
      { resolveAgainst (1/2) boxC2 prop with y := cur.y } := rfl

lemma foldl_collisionStep_snd (radius : ℝ) (cs : List WallCollider)
    (s : CollisionSystem) (p : Vec3) :
    (cs.foldl (collisionStep radius) (s, p)).2 =
      cs.foldl (fun q c => resolveAgainst radius c q) p := by
  induction cs generalizing s p with
  | nil => rfl
  | cons c t ih => exact ih _ _

lemma foldl_collisionStep_fields (radius : ℝ) (cs : List WallCollider)
    (s : CollisionSystem) (p : Vec3) :
    (cs.foldl (collisionStep radius) (s, p)).1.colliders = s.colliders ∧
    (cs.foldl (collisionStep radius) (s, p)).1.playerCollider = s.playerCollider ∧
    (cs.foldl (collisionStep radius) (s, p)).1.spatialGrid = s.spatialGrid := by
  induction cs generalizing s p with
  | nil => exact ⟨rfl, rfl, rfl⟩
  | cons c t ih => exact ih _ _

lemma mem_buildActiveStep {colliders acc : List WallCollider} {obj : ℕ}
    {c : WallCollider} (hc : c ∈ buildActiveStep colliders acc obj) :
    c ∈ acc ∨ c ∈ colliders := by
  unfold buildActiveStep at hc
  revert hc
  cases hfind : colliders.find? (fun c => c.mesh == obj) with
  | none => exact Or.inl
  | some mc =>
    intro hc
    dsimp only at hc
    split_ifs at hc
    · exact Or.inl hc
    · rcases List.mem_append.mp hc with hmem | hmem
      · exact Or.inl hmem
      · rw [List.mem_singleton.mp hmem]
        exact Or.inr (List.mem_of_find?_eq_some hfind)

lemma mem_buildActive {colliders : List WallCollider} {nearby : List ℕ} :
    ∀ c ∈ buildActive colliders nearby, c ∈ colliders := by
  have key : ∀ (l : List ℕ) (acc : List WallCollider),
      (∀ c ∈ acc, c ∈ colliders) →
      ∀ c ∈ l.foldl (buildActiveStep colliders) acc, c ∈ colliders := by
    intro l
    induction l with
    | nil => intro acc hacc c hc; exact hacc c hc
    | cons a t ih =>
      intro acc hacc c hc
      refine ih _ ?_ c hc
      intro c2 hc2
      rcases mem_buildActiveStep hc2 with hmem | hmem
      · exact hacc c2 hmem
      · exact hmem
  exact key nearby [] (by simp)

/-- If all wall colliders are at distance at least the player radius from the
proposed position, the resolution loop leaves the position unchanged. -/
lemma foldl_resolveAgainst_of_far {radius : ℝ} {p : Vec3}
    (cs : List WallCollider) (h : ∀ c ∈ cs, radius ≤ distToCollider c p) :
    cs.foldl (fun q c => resolveAgainst radius c q) p = p := by
  induction cs with
  | nil => rfl
  | cons c t ih =>
    rw [List.foldl_cons, resolveAgainst_of_far (h c (List.mem_cons_self c t))]
    exact ih fun c2 hc2 => h c2 (List.mem_cons_of_mem c hc2)

lemma mem_collidersToCheck {sys : CollisionSystem} {prop : Vec3}
    {c : WallCollider} (hc : c ∈ collidersToCheck sys prop) :
    c ∈ sys.colliders := by
  unfold collidersToCheck at hc
  revert hc
  cases sys.spatialGrid with
  | none => exact id
  | some grid => exact fun hc => mem_buildActive c hc

/-- When a player collider exists, the returned position is the sequential
resolution of the proposed position against the checked colliders, with the
Y coordinate overwritten by the current position's Y. -/
lemma checkCollisions_snd {sys : CollisionSystem} (cur prop : Vec3)
    {pc : PlayerCollider} (h : sys.playerCollider = some pc) :
    (checkCollisions sys cur prop).2 =
      { (collidersToCheck sys prop).foldl
          (fun q c => resolveAgainst sys.playerRadius c q) prop with
        y := cur.y } := by
  unfold checkCollisions collidersToCheck
  rw [h]
  cases hg : sys.spatialGrid with
  | none =>
    dsimp only
    rw [foldl_collisionStep_snd]
  | some grid =>
    dsimp only
    rw [foldl_collisionStep_snd]

end CollisionSystem

/-! ## Claims about the collision resolver -/

/-- Claim C1: for the single box collider centered at `(0,0)` with size
`(2,2)` and player radius `0.5`, moving from `(0,3)` toward `(0,0)` in
repeated resolve steps each smaller than the box (step `δ i ∈ (0,2)` along
`−z` with `x` held at `0`), after every resolve call the player position's
horizontal distance from the box surface is at least `radius − 1e-6`
(in this exact-arithmetic model it is in fact at least `radius`). -/
theorem resolve_no_penetration
    (δ : ℕ → ℝ) (hδ : ∀ i, 0 < δ i ∧ δ i < 2)
    (pos : ℕ → Vec3) (h0 : pos 0 = ⟨0, 0, 3⟩)
    (hstep : ∀ i, pos (i + 1) =
      (CollisionSystem.checkCollisions sysC1 (pos i)
        ⟨0, (pos i).y, (pos i).z - δ i⟩).2)
    (i : ℕ) :
    1/2 - 1/1000000 ≤ distToCollider boxC1 (pos (i + 1)) := by
  rw [hstep i, CollisionSystem.checkCollisions_sysC1, distToCollider_setY]
  have hge := dist_resolveAgainst_ge (1/2) boxC1
    ⟨0, (pos i).y, (pos i).z - δ i⟩ (by norm_num)
    (by norm_num [boxC1, WallCollider.boxMinX, WallCollider.boxMaxX])
    (by norm_num [boxC1, WallCollider.boxMinZ, WallCollider.boxMaxZ])
  linarith

/-- Witness for C1: the concrete trajectory with fixed step `1` satisfies
the hypotheses, and after the first resolve the distance bound holds. -/
theorem resolve_no_penetration_witness :
    posC1W 0 = ⟨0, 0, 3⟩ ∧ ((0:ℝ) < 1 ∧ (1:ℝ) < 2) ∧
    1/2 - 1/1000000 ≤ distToCollider boxC1 (posC1W 1) :=
  ⟨rfl, by norm_num,
    resolve_no_penetration (fun _ => 1) (fun _ => by norm_num) posC1W rfl
      (fun i => rfl) 0⟩

/-- Claim C2: with the player collider exactly at the center `(0,0)` of the
box of size `(4,2)` (wider in X) and radius `0.5`, resolve ejects along Z
only: the first-found minimum-penetration axis among
(left `2`, right `2`, near `1`, far `1`) is the near side, so the result is
exactly `(0, boxMin.z − radius) = (0, −1.5)`, with `x` unchanged. -/
theorem resolve_axis_ejection (cur : Vec3) (y : ℝ) :
    (CollisionSystem.checkCollisions sysC2 cur ⟨0, y, 0⟩).2 =
      ⟨0, cur.y, -(3/2)⟩ := by
  rw [CollisionSystem.checkCollisions_sysC2]
  have hdist : distToCollider boxC2 ⟨0, y, 0⟩ = 0 := by
    unfold distToCollider deltaX deltaZ closestX closestZ
    norm_num [boxC2, WallCollider.boxMinX, WallCollider.boxMaxX,
      WallCollider.boxMinZ, WallCollider.boxMaxZ, min_def, max_def,
      Real.sqrt_zero]
  have heject : ejectFromBox (1/2) boxC2 ⟨0, y, 0⟩ = ⟨0, y, -(3/2)⟩ := by
    simp only [ejectFromBox]
    norm_num [boxC2, WallCollider.boxMinX, WallCollider.boxMaxX,
      WallCollider.boxMinZ, WallCollider.boxMaxZ]
  have hres : resolveAgainst (1/2) boxC2 ⟨0, y, 0⟩ = ⟨0, y, -(3/2)⟩ := by
    simp only [resolveAgainst, hdist]
    rw [if_pos (by norm_num : (0:ℝ) < 1/2)]
    rw [if_neg (by norm_num : ¬((0:ℝ) < 1/2 - 0 ∧ (0:ℝ) < 0))]
    rw [if_pos trivial]
    exact heject
  rw [hres]

/-- Claim C4 (amended), counterexample to the original: when no player
collider exists, `checkCollisions` returns the proposed position, whose Y
coordinate is not the current position's Y when the two differ. -/
theorem resolve_y_passthrough_counterexample :
    sysNoPlayer.playerCollider = none ∧
    (CollisionSystem.checkCollisions sysNoPlayer ⟨0, 1, 0⟩ ⟨0, 2, 0⟩).2.y ≠
      (⟨0, 1, 0⟩ : Vec3).y := by
  refine ⟨rfl, ?_⟩
  show (2 : ℝ) ≠ 1
  norm_num

/-- Claim C4 (amended): whenever a player collider exists, the Y coordinate
of the position returned by `checkCollisions` equals `currentPosition.y`
exactly, regardless of any X/Z adjustment.  (When no player collider exists
the proposed position is returned unchanged instead, so the unconditional
claim fails — see the counterexample.) -/
theorem resolve_y_passthrough (sys : CollisionSystem) (cur prop : Vec3)
    (pc : PlayerCollider) (h : sys.playerCollider = some pc) :
    (CollisionSystem.checkCollisions sys cur prop).2.y = cur.y := by
  rw [CollisionSystem.checkCollisions_snd cur prop h]

/-- Witness for C4 on `sysC1`, whose player collider exists: the returned Y
is the current position's Y. -/
theorem resolve_y_passthrough_witness :
    (CollisionSystem.checkCollisions sysC1 ⟨1, 2, 3⟩ ⟨4, 5, 6⟩).2.y = 2 :=
  resolve_y_passthrough sysC1 ⟨1, 2, 3⟩ ⟨4, 5, 6⟩ ⟨⟨0, 0, 3⟩, 1/2, 9/5⟩ rfl

/-- Claim C5 (amended), counterexample to the original: with a player
collider present and no wall collider at all (so every collider is trivially
at distance ≥ radius), `checkCollisions` still replaces the Y coordinate by
the current position's Y, so the result differs from the proposed position
when the Y coordinates differ. -/
theorem resolve_non_overlap_counterexample :
    sysNoWalls.colliders = [] ∧
    (CollisionSystem.checkCollisions sysNoWalls ⟨0, 1, 0⟩ ⟨0, 2, 0⟩).2 ≠
      (⟨0, 2, 0⟩ : Vec3) := by
  refine ⟨rfl, ?_⟩
  intro hcontra
  have hy : ((CollisionSystem.checkCollisions sysNoWalls
      ⟨0, 1, 0⟩ ⟨0, 2, 0⟩).2).y = (1 : ℝ) := rfl
  rw [hcontra] at hy
  norm_num at hy

/-- Claim C5 (amended): if the proposed position is at 2-D distance at least
the player radius from every wall collider's box, `checkCollisions` returns
the proposed X and Z unmodified (the Y coordinate is still overwritten with
the current position's Y whenever a player collider exists, so the original
"equal in all three coordinates" phrasing fails — see the counterexample). -/
theorem resolve_non_overlap (sys : CollisionSystem) (cur prop : Vec3)
    (h : ∀ c ∈ sys.colliders, sys.playerRadius ≤ distToCollider c prop) :
    (CollisionSystem.checkCollisions sys cur prop).2.x = prop.x ∧
    (CollisionSystem.checkCollisions sys cur prop).2.z = prop.z := by
  cases hpc : sys.playerCollider with
  | none =>
    have hret : (CollisionSystem.checkCollisions sys cur prop).2 = prop := by
      unfold CollisionSystem.checkCollisions
      rw [hpc]
    rw [hret]
    exact ⟨rfl, rfl⟩
  | some pc =>
    rw [CollisionSystem.checkCollisions_snd cur prop hpc,
      CollisionSystem.foldl_resolveAgainst_of_far _
        (fun c hc => h c (CollisionSystem.mem_collidersToCheck hc))]
    exact ⟨rfl, rfl⟩

/-- Witness for C5: with the single box `boxC1` and the far-away proposed
position `(5,0,0)` (distance 4 from the box), both hypotheses and
conclusions hold concretely. -/
theorem resolve_non_overlap_witness :
    (∀ c ∈ sysC1.colliders, sysC1.playerRadius ≤ distToCollider c ⟨5, 0, 0⟩) ∧
    (CollisionSystem.checkCollisions sysC1 ⟨0, 0, 0⟩ ⟨5, 0, 0⟩).2.x = 5 ∧
    (CollisionSystem.checkCollisions sysC1 ⟨0, 0, 0⟩ ⟨5, 0, 0⟩).2.z = 0 := by
  have hdist : distToCollider boxC1 ⟨5, 0, 0⟩ = 4 := by
    unfold distToCollider deltaX deltaZ closestX closestZ
    norm_num [boxC1, WallCollider.boxMinX, WallCollider.boxMaxX,
      WallCollider.boxMinZ, WallCollider.boxMaxZ, min_def, max_def]
    rw [show (16:ℝ) = 4 ^ 2 by norm_num]
    exact Real.sqrt_sq (by norm_num)
  have h : ∀ c ∈ sysC1.colliders, sysC1.playerRadius ≤ distToCollider c ⟨5, 0, 0⟩ := by
    intro c hc
    rw [show sysC1.colliders = [boxC1] from rfl] at hc
    rw [List.mem_singleton.mp hc, hdist]
    norm_num [sysC1]
  exact ⟨h, (resolve_non_overlap sysC1 ⟨0, 0, 0⟩ ⟨5, 0, 0⟩ h).1,
    (resolve_non_overlap sysC1 ⟨0, 0, 0⟩ ⟨5, 0, 0⟩ h).2⟩

/-- Claim C6: `checkCollisions` returns the proposed position unchanged when
no player collider exists, and in particular after `clear()` — which drops
all wall colliders and the player collider — every call returns the proposed
position unchanged. -/
theorem resolve_pass_through (sys : CollisionSystem) (cur prop : Vec3) :
    (sys.playerCollider = none →
      (CollisionSystem.checkCollisions sys cur prop).2 = prop) ∧
    (CollisionSystem.checkCollisions (CollisionSystem.clear sys) cur prop).2 =
      prop := by
  constructor
  · intro h
    unfold CollisionSystem.checkCollisions
    rw [h]
  · unfold CollisionSystem.checkCollisions CollisionSystem.clear
    rfl

/-- Witness for C6: pass-through on the concrete collider-free system and on
a cleared system with previously loaded colliders. -/
theorem resolve_pass_through_witness :
    (CollisionSystem.checkCollisions sysNoPlayer ⟨1, 2, 3⟩ ⟨4, 5, 6⟩).2 =
      ⟨4, 5, 6⟩ ∧
    (CollisionSystem.checkCollisions (CollisionSystem.clear sysC1)
      ⟨1, 2, 3⟩ ⟨4, 5, 6⟩).2 = ⟨4, 5, 6⟩ :=
  ⟨(resolve_pass_through sysNoPlayer ⟨1, 2, 3⟩ ⟨4, 5, 6⟩).1 rfl,
    (resolve_pass_through sysC1 ⟨1, 2, 3⟩ ⟨4, 5, 6⟩).2⟩

/-- Claim C10: `checkCollisions` is read-only on collision state: in the
state-passing model (which does mirror the mutations the code performs —
the per-frame and total check counters and the active-collider scratch set)
the wall-collider list, the player collider record (with its position), and
the attached spatial hash grid (with its cells and tracking map) are
unchanged by every call, with or without a grid attached; the input
positions are values and the adjusted position is returned as a fresh
value. -/
theorem resolve_read_only (sys : CollisionSystem) (cur prop : Vec3) :
    (CollisionSystem.checkCollisions sys cur prop).1.colliders =
      sys.colliders ∧
    (CollisionSystem.checkCollisions sys cur prop).1.playerCollider =
      sys.playerCollider ∧
    (CollisionSystem.checkCollisions sys cur prop).1.spatialGrid =
      sys.spatialGrid := by
  unfold CollisionSystem.checkCollisions
  cases hpc : sys.playerCollider with
  | none => exact ⟨rfl, hpc, rfl⟩
  | some pc =>
    cases hg : sys.spatialGrid with
    | none =>
      dsimp only
      refine ⟨?_, ?_, ?_⟩
      · rw [(CollisionSystem.foldl_collisionStep_fields sys.playerRadius
          sys.colliders _ prop).1]
      · rw [(CollisionSystem.foldl_collisionStep_fields sys.playerRadius
          sys.colliders _ prop).2.1]
      · rw [(CollisionSystem.foldl_collisionStep_fields sys.playerRadius
          sys.colliders _ prop).2.2]
    | some grid =>
      dsimp only
      refine ⟨?_, ?_, ?_⟩
      · rw [(CollisionSystem.foldl_collisionStep_fields sys.playerRadius
          _ _ prop).1]
      · rw [(CollisionSystem.foldl_collisionStep_fields sys.playerRadius
          _ _ prop).2.1]
      · rw [(CollisionSystem.foldl_collisionStep_fields sys.playerRadius
          _ _ prop).2.2]

end Maze
